import Mathlib

/-!
Verification development for the treefrog-framework excerpt:
`TKvsDatabasePool` (src/tkvsdatabasepool.cpp), `TThreadApplicationServer`
(src/tthreadapplicationserver.cpp) and `TCacheSQLiteStore`
(src/tcachesqlitestore.cpp).

The C++ state is embedded shallowly: connection names are strings, the
per-type stacks (`cachedDatabase` = warm stack, `availableNames` = cold
stack) are Lean lists whose head is the stack top, timestamps are `Int`
(seconds since epoch; `std::time(nullptr)` never gets close to wrapping
the 32-bit counter within the program's life, so the unsigned wrap in
`(uint)std::time(nullptr) - 30` is modelled by exact integer
arithmetic).  The environment is abstracted by two oracles:
`isOpen name` is the value of `TKvsDatabase::database(name).isOpen()`
and `openOk name` the success of `db.open()`.
-/

namespace TreeFrog

/-- Outcome of `TKvsDatabasePool::database` (the acquire operation):
either a connection is returned (`ok`), or `db.open()` failed and the
default-constructed invalid `TKvsDatabase()` is returned (`openFailed`,
the spec's `OpenFailed` error), or both stacks were empty and the C++
`for(;;)` loop spins (`blocked`). -/
inductive AcqOutcome where
  | ok (name : String)
  | openFailed (name : String)
  | blocked
deriving DecidableEq, Repr

/-- The names returned to the caller or dropped by an acquire outcome. -/
def AcqOutcome.names : AcqOutcome → List String
  | .ok n => [n]
  | .openFailed n => [n]
  | .blocked => []

/-- The `for(;;)` loop body of `TKvsDatabasePool::database`
(tkvsdatabasepool.cpp lines 195-228), recursing on the warm stack
`cache` (= `cachedDatabase[type]`) with the cold stack `stack`
(= `availableNames[type]`).  Each iteration first pops the warm stack:
an open handle is returned at once, a broken one is pushed onto the
cold stack (`stack.push(name)`) and the loop continues.  Once the warm
stack is exhausted the cold stack is popped: an unexpectedly open handle
is returned with a warning, otherwise `db.open()` is attempted; on
failure the invalid `TKvsDatabase()` is returned and the popped name
goes back to neither stack.  If both stacks are empty the loop spins.
Returns (outcome, warm stack after, cold stack after, names on which
`open()` was attempted). -/
def acquireLoop (isOpen openOk : String → Bool) :
    List String → List String → AcqOutcome × List String × List String × List String
  | [], [] => (.blocked, [], [], [])
  | [], n :: cs =>
      if isOpen n then (.ok n, [], cs, [])
      else if openOk n then (.ok n, [], cs, [n])
      else (.openFailed n, [], cs, [n])
  | w :: ws, cold =>
      if isOpen w then (.ok w, ws, cold, [])
      else acquireLoop isOpen openOk ws (w :: cold)

/-- Per-type pool state of `TKvsDatabasePool`.  `warm` is
`cachedDatabase[type]` (idle open connections), `cold` is
`availableNames[type]` (reserved closed names), `lastReleased` is
`lastCachedTime[type]`.  `inUse` (names held by callers) and `lost`
(names dropped on the open-failure path) are ghost components recording
where names outside the two stacks went; the C++ object does not store
them. -/
structure PoolState where
  warm : List String
  cold : List String
  inUse : List String
  lost : List String
  lastReleased : Int
deriving DecidableEq, Repr

/-- State after `TKvsDatabasePool::init`: all `maxConnects` reserved
names sit on the cold stack (`stack.push(db.connectionName())`), the
warm stack is empty and nothing is held. -/
def initPool (names : List String) : PoolState :=
  { warm := [], cold := names, inUse := [], lost := [], lastReleased := 0 }

/-- One acquire call (`TKvsDatabasePool::database`) acting on the pool
state: the loop result updates the stacks, a returned connection joins
the caller-held set, an open-failed name is recorded as lost. -/
def acquireStep (isOpen openOk : String → Bool) (s : PoolState) :
    AcqOutcome × PoolState :=
  match acquireLoop isOpen openOk s.warm s.cold with
  | (o, w', c', _) =>
    (o, match o with
        | .ok n => { s with warm := w', cold := c', inUse := n :: s.inUse }
        | .openFailed n => { s with warm := w', cold := c', lost := n :: s.lost }
        | .blocked => { s with warm := w', cold := c' })

/-- One release call (`TKvsDatabasePool::pool`, lines 284-297) for a
valid in-use connection `n` at time `now`: its name is pushed onto the
warm stack (`cachedDatabase[type].push`), `lastCachedTime[type]` is
stored, and the caller's handle disappears from the held set. -/
def releaseStep (n : String) (now : Int) (s : PoolState) : PoolState :=
  { s with warm := n :: s.warm, inUse := s.inUse.erase n, lastReleased := now }

/-- The `while` loop of `TKvsDatabasePool::timerEvent` (lines 312-317)
for one type: while `lastCachedTime[t] < now - 30` and the warm stack
pops, the connection is closed and its name pushed onto the cold stack.
Returns (warm after, cold after, names closed in pop order). -/
def reclaimLoop (last now : Int) :
    List String → List String → List String × List String × List String
  | warm, cold =>
    if last < now - 30 then
      match warm with
      | [] => ([], cold, [])
      | w :: ws =>
          match reclaimLoop last now ws (w :: cold) with
          | (a, b, c) => (a, b, w :: c)
    else (warm, cold, [])

/-- One timer tick (`TKvsDatabasePool::timerEvent`) at time `now`. -/
def tickStep (now : Int) (s : PoolState) : PoolState :=
  match reclaimLoop s.lastReleased now s.warm s.cold with
  | (w', c', _) => { s with warm := w', cold := c' }

/-- Interval of `timer.start(10000, this)` in `TKvsDatabasePool::init`
(line 124), in milliseconds. -/
def reclaimPeriodMsec : Nat := 10000

/-- Idle threshold of the reclaim sweep, in seconds
(`lastCachedTime[t].load() < (uint)std::time(nullptr) - 30`). -/
def idleThreshold : Int := 30

/-- A step of the pool: an acquire with some environment oracles, a
release of a caller-held connection at some time, or a reclaim tick at
some time. -/
inductive Step : PoolState → PoolState → Prop
  | acquire (isOpen openOk : String → Bool) (s : PoolState) :
      Step s (acquireStep isOpen openOk s).2
  | release (n : String) (now : Int) (s : PoolState) :
      n ∈ s.inUse → Step s (releaseStep n now s)
  | tick (now : Int) (s : PoolState) : Step s (tickStep now s)

/-- States reachable from `s0` by pool operations. -/
inductive Reachable (s0 : PoolState) : PoolState → Prop
  | refl : Reachable s0 s0
  | step {s t : PoolState} : Reachable s0 s → Step s t → Reachable s0 t

/-- All names owned by the pool system, over the four disjoint places. -/
def PoolState.allNames (s : PoolState) : List String :=
  s.warm ++ s.cold ++ s.inUse ++ s.lost

/-- The quantity `|warm| + |cold| + |in-use|` of the spec's capacity
invariant (the lost names are not counted). -/
def PoolState.liveTotal (s : PoolState) : Nat :=
  s.warm.length + s.cold.length + s.inUse.length

/-- The acquire loop only moves names around: the returned/dropped name
together with the two remaining stacks is a permutation of the two
input stacks. -/
theorem acquireLoop_perm (f g : String → Bool) (warm cold : List String) :
    List.Perm
      ((acquireLoop f g warm cold).1.names ++
        (acquireLoop f g warm cold).2.1 ++ (acquireLoop f g warm cold).2.2.1)
      (warm ++ cold) := by
  induction warm generalizing cold with
  | nil =>
    cases cold with
    | nil => simp [acquireLoop, AcqOutcome.names]
    | cons n cs =>
      by_cases h1 : f n
      · simp [acquireLoop, h1, AcqOutcome.names]
      · by_cases h2 : g n <;> simp [acquireLoop, h1, h2, AcqOutcome.names]
  | cons w ws ih =>
    by_cases h1 : f w
    · simp [acquireLoop, h1, AcqOutcome.names]
    · have h := ih (w :: cold)
      simp only [acquireLoop, h1, Bool.false_eq_true, if_false]
      exact h.trans List.perm_middle

/-- Characterization of the reclaim sweep: when the per-type timestamp
is older than the threshold the whole warm stack is drained onto the
cold stack (and every drained connection closed), otherwise nothing
happens. -/
theorem reclaimLoop_eq (last now : Int) (warm cold : List String) :
    reclaimLoop last now warm cold =
      (if last < now - 30 then (([] : List String), warm.reverse ++ cold, warm)
       else (warm, cold, [])) := by
  induction warm generalizing cold with
  | nil =>
    by_cases h : last < now - 30 <;> simp [reclaimLoop, h]
  | cons w ws ih =>
    by_cases h : last < now - 30
    · rw [reclaimLoop, if_pos h, ih (w :: cold)]
      simp [h]
    · simp [reclaimLoop, h]

/-- Every pool step permutes the multiset of names over the four
ownership places (warm, cold, in-use, lost). -/
theorem step_allNames_perm {s t : PoolState} (h : Step s t) :
    List.Perm t.allNames s.allNames := by
  rw [← Multiset.coe_eq_coe]
  cases h with
  | acquire f g s =>
    have hp := acquireLoop_perm f g s.warm s.cold
    rcases hloop : acquireLoop f g s.warm s.cold with ⟨o, w', c', op⟩
    rw [hloop] at hp
    have hp' : ((o.names ++ w' ++ c' : List String) : Multiset String)
        = ((s.warm ++ s.cold : List String) : Multiset String) :=
      Multiset.coe_eq_coe.mpr (by simpa using hp)
    cases o with
    | ok n =>
      simp only [AcqOutcome.names, ← Multiset.coe_add, ← Multiset.cons_coe,
        ← Multiset.singleton_add, Multiset.coe_singleton] at hp'
      simp only [acquireStep, hloop, PoolState.allNames, ← Multiset.coe_add,
        ← Multiset.cons_coe, ← Multiset.singleton_add]
      rw [← hp']
      abel
    | openFailed n =>
      simp only [AcqOutcome.names, ← Multiset.coe_add, ← Multiset.cons_coe,
        ← Multiset.singleton_add, Multiset.coe_singleton] at hp'
      simp only [acquireStep, hloop, PoolState.allNames, ← Multiset.coe_add,
        ← Multiset.cons_coe, ← Multiset.singleton_add]
      rw [← hp']
      abel
    | blocked =>
      simp only [AcqOutcome.names, List.nil_append, ← Multiset.coe_add] at hp'
      simp only [acquireStep, hloop, PoolState.allNames, ← Multiset.coe_add]
      rw [← hp']
  | release n now s hmem =>
    have hm : ((s.inUse : List String) : Multiset String)
        = ((n :: s.inUse.erase n : List String) : Multiset String) :=
      Multiset.coe_eq_coe.mpr (List.perm_cons_erase hmem)
    simp only [← Multiset.cons_coe, ← Multiset.singleton_add] at hm
    simp only [releaseStep, PoolState.allNames, ← Multiset.coe_add,
      ← Multiset.cons_coe, ← Multiset.singleton_add]
    rw [hm]
    abel
  | tick now s =>
    simp only [tickStep, reclaimLoop_eq, PoolState.allNames]
    by_cases h : s.lastReleased < now - 30
    · simp only [h, if_true, if_pos, ← Multiset.coe_add, Multiset.coe_reverse,
        Multiset.coe_nil, zero_add]
    · simp [h]

/-- Along any reachable execution the multiset of names is preserved. -/
theorem reachable_allNames_perm {s0 s : PoolState} (h : Reachable s0 s) :
    List.Perm s.allNames s0.allNames := by
  induction h with
  | refl => exact List.Perm.refl _
  | step _ hstep ih => exact (step_allNames_perm hstep).trans ih

/-- No pool operation ever recovers a lost name. -/
theorem step_lost_le {s t : PoolState} (h : Step s t) :
    s.lost.length ≤ t.lost.length := by
  cases h with
  | acquire f g s =>
    rcases hloop : acquireLoop f g s.warm s.cold with ⟨o, w', c', op⟩
    cases o <;> simp [acquireStep, hloop]
  | release n now s hmem => simp [releaseStep]
  | tick now s =>
    rcases hloop : reclaimLoop s.lastReleased now s.warm s.cold with ⟨w', c', cl⟩
    simp [tickStep, hloop]

/-- The total number of names over all four places is preserved. -/
theorem step_total_eq {s t : PoolState} (h : Step s t) :
    t.warm.length + t.cold.length + t.inUse.length + t.lost.length
      = s.warm.length + s.cold.length + s.inUse.length + s.lost.length := by
  have hl := (step_allNames_perm h).length_eq
  simp only [PoolState.allNames, List.length_append] at hl
  omega

/-- The sum `|warm| + |cold| + |in-use|` never grows across a pool step
(it shrinks exactly when an open failure loses a name). -/
theorem step_liveTotal_le {s t : PoolState} (h : Step s t) :
    t.liveTotal ≤ s.liveTotal := by
  have h1 := step_total_eq h
  have h2 := step_lost_le h
  simp only [PoolState.liveTotal]
  omega

/-- Monotonicity: `liveTotal` never increases along executions. -/
theorem reachable_liveTotal_le {s t : PoolState} (h : Reachable s t) :
    t.liveTotal ≤ s.liveTotal := by
  induction h with
  | refl => exact le_refl _
  | step _ hstep ih => exact le_trans (step_liveTotal_le hstep) ih

/-- With distinct initial names, the names over all four places stay
duplicate-free at every reachable state. -/
theorem reachable_allNames_nodup {names : List String} {s : PoolState}
    (hn : names.Nodup) (h : Reachable (initPool names) s) :
    s.allNames.Nodup := by
  have hp := reachable_allNames_perm h
  have h0 : (initPool names).allNames.Nodup := by
    simpa [initPool, PoolState.allNames] using hn
  exact hp.nodup_iff.mpr h0

/-- When every handle on the warm stack is broken, the acquire loop
drains the warm stack onto the cold stack and then works on the cold
stack alone. -/
theorem acquireLoop_allBroken (f g : String → Bool) (warm cold : List String)
    (hb : ∀ w ∈ warm, f w = false) :
    acquireLoop f g warm cold = acquireLoop f g [] (warm.reverse ++ cold) := by
  induction warm generalizing cold with
  | nil => simp
  | cons w ws ih =>
    have hw : f w = false := hb w (by simp)
    rw [show acquireLoop f g (w :: ws) cold = acquireLoop f g ws (w :: cold) by
      simp [acquireLoop, hw]]
    rw [ih (w :: cold) (fun x hx => hb x (by simp [hx]))]
    congr 1
    simp

/-- Claim C1 (amended): at every reachable pool state the number of
warm names plus cold names plus caller-held names plus names lost to
open failures equals the type's capacity (the number of names reserved
at init); the spec's sum `|warm| + |cold| + |in-use|` alone equals
capacity only as long as no open failure has occurred. -/
theorem claim1_capacity_with_losses (names : List String) (s : PoolState)
    (h : Reachable (initPool names) s) :
    s.warm.length + s.cold.length + s.inUse.length + s.lost.length
      = names.length := by
  have hl := (reachable_allNames_perm h).length_eq
  simp only [PoolState.allNames, initPool, List.length_append, List.length_nil] at hl
  omega

/-- Witness for C1 (amended): after one successful acquire on a
two-name pool the four places still hold two names in total. -/
theorem claim1_capacity_with_losses_witness :
    ({ warm := [], cold := ["kvs00_1"], inUse := ["kvs00_0"], lost := [],
       lastReleased := 0 } : PoolState).warm.length
      + ({ warm := [], cold := ["kvs00_1"], inUse := ["kvs00_0"], lost := [],
           lastReleased := 0 } : PoolState).cold.length
      + ({ warm := [], cold := ["kvs00_1"], inUse := ["kvs00_0"], lost := [],
           lastReleased := 0 } : PoolState).inUse.length
      + ({ warm := [], cold := ["kvs00_1"], inUse := ["kvs00_0"], lost := [],
           lastReleased := 0 } : PoolState).lost.length = 2 := by
  have hstep := Step.acquire (fun _ => false) (fun _ => true)
    (initPool ["kvs00_0", "kvs00_1"])
  have e : (acquireStep (fun _ => false) (fun _ => true)
      (initPool ["kvs00_0", "kvs00_1"])).2
      = { warm := [], cold := ["kvs00_1"], inUse := ["kvs00_0"], lost := [],
          lastReleased := 0 } := by decide
  exact claim1_capacity_with_losses _ _ (Reachable.step Reachable.refl (e ▸ hstep))

/-- The pool state reached from a one-name pool by a single acquire
whose `db.open()` fails: both stacks empty, nothing held, the name
lost. -/
def lostState : PoolState :=
  { warm := [], cold := [], inUse := [], lost := ["kvs00_0"], lastReleased := 0 }

/-- Counterexample to C1 as stated: on a capacity-1 pool, one acquire
whose `db.open()` fails reaches a state where
`|warm| + |cold| + |in-use| = 0 ≠ 1 = capacity` (the name is lost, as
the open-failure path of `TKvsDatabasePool::database` returns it to
neither stack). -/
theorem claim1_counterexample :
    Reachable (initPool ["kvs00_0"]) lostState ∧
    lostState.warm.length + lostState.cold.length + lostState.inUse.length
      ≠ (["kvs00_0"] : List String).length := by
  constructor
  · have hstep := Step.acquire (fun _ => false) (fun _ => false)
      (initPool ["kvs00_0"])
    have e : (acquireStep (fun _ => false) (fun _ => false)
        (initPool ["kvs00_0"])).2 = lostState := by decide
    exact Reachable.step Reachable.refl (e ▸ hstep)
  · decide

/-- Claim C2: with distinct initial names, at every reachable state a
name is in at most one of warm stack, cold stack and the caller-held
set, and no name is held twice by callers (so two acquires never both
hold the same name). -/
theorem claim2_exclusive_ownership (names : List String) (s : PoolState)
    (x : String) (hn : names.Nodup) (h : Reachable (initPool names) s) :
    s.inUse.Nodup ∧
    (x ∈ s.warm → x ∉ s.cold ∧ x ∉ s.inUse) ∧
    (x ∈ s.cold → x ∉ s.inUse) := by
  have hnd := reachable_allNames_nodup hn h
  simp only [PoolState.allNames, List.nodup_append, List.disjoint_append_left,
    List.disjoint_append_right] at hnd
  have hu : s.inUse.Nodup := by tauto
  have hdwc : s.warm.Disjoint s.cold := by tauto
  have hdwu : s.warm.Disjoint s.inUse := by tauto
  have hdcu : s.cold.Disjoint s.inUse := by tauto
  exact ⟨hu, fun hxw => ⟨fun hxc => hdwc hxw hxc, fun hxu => hdwu hxw hxu⟩,
    fun hxc hxu => hdcu hxc hxu⟩

/-- Witness for C2 at a concrete two-name pool (initial state). -/
theorem claim2_exclusive_ownership_witness :
    List.Nodup ["kvs00_0", "kvs00_1"] ∧
    ((initPool ["kvs00_0", "kvs00_1"]).inUse.Nodup ∧
     ("kvs00_0" ∈ (initPool ["kvs00_0", "kvs00_1"]).warm →
        "kvs00_0" ∉ (initPool ["kvs00_0", "kvs00_1"]).cold ∧
        "kvs00_0" ∉ (initPool ["kvs00_0", "kvs00_1"]).inUse) ∧
     ("kvs00_0" ∈ (initPool ["kvs00_0", "kvs00_1"]).cold →
        "kvs00_0" ∉ (initPool ["kvs00_0", "kvs00_1"]).inUse)) :=
  ⟨by decide, claim2_exclusive_ownership _ _ _ (by decide) Reachable.refl⟩

/-- Claim C3: an acquire that pops a name from the cold stack and whose
`db.open()` fails returns the `OpenFailed` error, puts the popped name
back on neither stack, and reduces `|warm| + |cold| + |in-use|` by one,
permanently: no later reachable state recovers it. -/
theorem claim3_open_failure_loses_slot (f g : String → Bool) (s : PoolState)
    (n : String) (rest : List String)
    (hb : ∀ w ∈ s.warm, f w = false)
    (hcold : s.warm.reverse ++ s.cold = n :: rest)
    (hopen : f n = false) (hfail : g n = false)
    (hnd : (s.warm ++ s.cold).Nodup) :
    (acquireStep f g s).1 = AcqOutcome.openFailed n ∧
    n ∉ (acquireStep f g s).2.warm ∧
    n ∉ (acquireStep f g s).2.cold ∧
    (acquireStep f g s).2.liveTotal + 1 = s.liveTotal ∧
    (∀ t, Reachable (acquireStep f g s).2 t → t.liveTotal < s.liveTotal) := by
  have hloop : acquireLoop f g s.warm s.cold
      = (AcqOutcome.openFailed n, [], rest, [n]) := by
    rw [acquireLoop_allBroken f g _ _ hb, hcold]
    simp [acquireLoop, hopen, hfail]
  have hstate : (acquireStep f g s).2
      = { s with warm := [], cold := rest, lost := n :: s.lost } := by
    simp [acquireStep, hloop]
  have hout : (acquireStep f g s).1 = AcqOutcome.openFailed n := by
    simp [acquireStep, hloop]
  have hlen : s.warm.length + s.cold.length = rest.length + 1 := by
    have hc := congrArg List.length hcold
    simp only [List.length_append, List.length_reverse, List.length_cons] at hc
    omega
  have hnotin : n ∉ rest := by
    have hperm : List.Perm (s.warm.reverse ++ s.cold) (s.warm ++ s.cold) :=
      List.Perm.append_right s.cold s.warm.reverse_perm
    have : (n :: rest).Nodup := by
      rw [← hcold]
      exact hperm.nodup_iff.mpr hnd
    exact (List.nodup_cons.mp this).1
  have hlive : (acquireStep f g s).2.liveTotal + 1 = s.liveTotal := by
    rw [hstate]
    simp only [PoolState.liveTotal, List.length_nil]
    omega
  refine ⟨hout, ?_, ?_, hlive, ?_⟩
  · rw [hstate]; simp
  · rw [hstate]; simpa using hnotin
  · intro t ht
    have := reachable_liveTotal_le ht
    omega

/-- Witness for C3: a one-name pool whose sole cold name fails to open;
the acquire returns `OpenFailed` and the pool total drops from 1 to 0
for good. -/
theorem claim3_open_failure_loses_slot_witness :
    (∀ w ∈ (initPool ["kvs00_0"]).warm, (fun _ : String => false) w = false) ∧
    (initPool ["kvs00_0"]).warm.reverse ++ (initPool ["kvs00_0"]).cold
      = "kvs00_0" :: [] ∧
    ((initPool ["kvs00_0"]).warm ++ (initPool ["kvs00_0"]).cold).Nodup ∧
    ((acquireStep (fun _ => false) (fun _ => false) (initPool ["kvs00_0"])).1
        = AcqOutcome.openFailed "kvs00_0" ∧
     "kvs00_0" ∉ (acquireStep (fun _ => false) (fun _ => false)
        (initPool ["kvs00_0"])).2.warm ∧
     "kvs00_0" ∉ (acquireStep (fun _ => false) (fun _ => false)
        (initPool ["kvs00_0"])).2.cold ∧
     (acquireStep (fun _ => false) (fun _ => false)
        (initPool ["kvs00_0"])).2.liveTotal + 1
        = (initPool ["kvs00_0"]).liveTotal ∧
     (∀ t, Reachable (acquireStep (fun _ => false) (fun _ => false)
        (initPool ["kvs00_0"])).2 t →
        t.liveTotal < (initPool ["kvs00_0"]).liveTotal)) :=
  ⟨by decide, by decide, by decide,
    claim3_open_failure_loses_slot (fun _ => false) (fun _ => false)
      (initPool ["kvs00_0"]) "kvs00_0" [] (by decide) (by decide)
      (by decide) (by decide) (by decide)⟩

/-- Claim C4: the reclaimer runs on the fixed 10-time-unit period set
by `timer.start(10000, this)` in `init`; on a tick, when the type's
last-release timestamp is older than the fixed 30-time-unit threshold,
the sweep pops every warm name, closes its connection (third component)
and pushes the name onto the cold stack, and otherwise leaves the
stacks alone. -/
theorem claim4_idle_reclaim (last now : Int) (warm cold : List String) :
    reclaimPeriodMsec = 10 * 1000 ∧ idleThreshold = 30 ∧
    reclaimLoop last now warm cold =
      (if last < now - idleThreshold then
         (([] : List String), warm.reverse ++ cold, warm)
       else (warm, cold, ([] : List String))) ∧
    (∀ s : PoolState, tickStep now s =
      if s.lastReleased < now - idleThreshold then
        { s with warm := [], cold := s.warm.reverse ++ s.cold }
      else s) := by
  refine ⟨rfl, rfl, by rw [reclaimLoop_eq]; rfl, ?_⟩
  intro s
  simp only [tickStep, reclaimLoop_eq, idleThreshold]
  by_cases h : s.lastReleased < now - 30
  · simp [h]
  · simp [h]

/-- Claim C6: popping a name from the warm stack, an acquire returns
the connection at once when its handle is still open — no `open()`
attempt (fourth component empty) and both stacks otherwise untouched —
and pushes the name onto the cold stack and continues the loop when
the handle is broken. -/
theorem claim6_warm_pop (f g : String → Bool) (n : String)
    (ws cold : List String) :
    acquireLoop f g (n :: ws) cold =
      (if f n then (AcqOutcome.ok n, ws, cold, ([] : List String))
       else acquireLoop f g ws (n :: cold)) := by
  by_cases h : f n <;> simp [acquireLoop, h]

/-- Claim C8: releasing an in-use connection `n` and immediately
acquiring the same type hands back exactly `n` (LIFO: the
most-recently-released name is on top of the warm stack and is popped
first), with no `open()` attempt and the stacks restored. -/
theorem claim8_release_acquire_lifo (f g : String → Bool) (s : PoolState)
    (n : String) (now : Int) (hopen : f n = true) :
    acquireStep f g (releaseStep n now s)
      = (AcqOutcome.ok n,
         { warm := s.warm, cold := s.cold, inUse := n :: s.inUse.erase n,
           lost := s.lost, lastReleased := now }) ∧
    (acquireLoop f g (releaseStep n now s).warm
        (releaseStep n now s).cold).2.2.2 = [] := by
  constructor
  · simp [acquireStep, releaseStep, acquireLoop, hopen]
  · simp [releaseStep, acquireLoop, hopen]

/-- Witness for C8: release then acquire on a concrete pool returns
the released name with an empty list of open attempts. -/
theorem claim8_release_acquire_lifo_witness :
    ((fun _ : String => true) "kvs00_0" = true) ∧
    (acquireStep (fun _ => true) (fun _ => false)
        (releaseStep "kvs00_0" 5 (initPool ["kvs00_1"]))
      = (AcqOutcome.ok "kvs00_0",
         { warm := (initPool ["kvs00_1"]).warm,
           cold := (initPool ["kvs00_1"]).cold,
           inUse := "kvs00_0" :: (initPool ["kvs00_1"]).inUse.erase "kvs00_0",
           lost := (initPool ["kvs00_1"]).lost, lastReleased := 5 }) ∧
     (acquireLoop (fun _ => true) (fun _ => false)
        (releaseStep "kvs00_0" 5 (initPool ["kvs00_1"])).warm
        (releaseStep "kvs00_0" 5 (initPool ["kvs00_1"])).cold).2.2.2 = []) :=
  ⟨rfl, claim8_release_acquire_lifo (fun _ => true) (fun _ => false)
    (initPool ["kvs00_1"]) "kvs00_0" 5 rfl⟩

/-!
Worker dispatcher of `TThreadApplicationServer`
(tthreadapplicationserver.cpp).  Workers (`TActionThread`) are
identified by the index of the construction loop; `idle` is the
function-static `threadPool` stack (head = top), `running` the started
threads whose `finished` signal has not fired yet.
-/

/-- State of the worker pool. -/
structure DispatcherState where
  idle : List Nat
  running : List Nat
deriving DecidableEq, Repr

/-- State after the constructor (lines 49-56): `maxThreads` workers
created and each pushed onto the pool in index order, so worker
`maxThreads - 1` sits on top; none running. -/
def dispatcherInit (maxThreads : Nat) : DispatcherState :=
  { idle := (List.range maxThreads).reverse, running := [] }

/-- Effect of `incomingConnection` (lines 108-120) once its busy-wait
`threadPoolPtr()->pop(thread)` succeeds: the popped idle worker is
started on the socket descriptor. -/
def dispatchStep (w : Nat) (ws : List Nat) (s : DispatcherState) :
    DispatcherState :=
  { idle := ws, running := w :: s.running }

/-- The `finished` signal wired in the constructor (lines 52-54): the
completed worker pushes itself back onto the idle pool. -/
def finishStep (w : Nat) (s : DispatcherState) : DispatcherState :=
  { idle := w :: s.idle, running := s.running.erase w }

/-- A dispatcher step: accept an inbound connection on an idle worker,
or a running worker finishes. -/
inductive DStep : DispatcherState → DispatcherState → Prop
  | dispatch (s : DispatcherState) (w : Nat) (ws : List Nat) :
      s.idle = w :: ws → DStep s (dispatchStep w ws s)
  | finish (s : DispatcherState) (w : Nat) :
      w ∈ s.running → DStep s (finishStep w s)

/-- Dispatcher states reachable from `s0`. -/
inductive DReachable (s0 : DispatcherState) : DispatcherState → Prop
  | refl : DReachable s0 s0
  | step {s t : DispatcherState} : DReachable s0 s → DStep s t → DReachable s0 t

/-- Each dispatcher step conserves the worker count. -/
theorem dstep_total_eq {s t : DispatcherState} (h : DStep s t) :
    t.idle.length + t.running.length = s.idle.length + s.running.length := by
  cases h with
  | dispatch w ws hidle => simp [dispatchStep, hidle]; omega
  | finish w hmem =>
    have h1 : (s.running.erase w).length = s.running.length - 1 :=
      List.length_erase_of_mem hmem
    have h2 : 0 < s.running.length :=
      List.length_pos.mpr (List.ne_nil_of_mem hmem)
    simp only [finishStep, List.length_cons, h1]
    omega

/-- Claim C5: the constructor creates exactly `m` workers, all idle; a
finished worker is pushed straight back onto the idle pool; and at
every reachable state `|idle| + |running| = m`, hence at most `m`
workers run concurrently. -/
theorem claim5_worker_conservation (m : Nat) (s : DispatcherState)
    (h : DReachable (dispatcherInit m) s) :
    (dispatcherInit m).idle.length = m ∧
    (dispatcherInit m).running = [] ∧
    (∀ (t : DispatcherState) (w : Nat), w ∈ t.running →
      (finishStep w t).idle = w :: t.idle) ∧
    s.idle.length + s.running.length = m ∧
    s.running.length ≤ m := by
  have htot : s.idle.length + s.running.length = m := by
    induction h with
    | refl => simp [dispatcherInit]
    | step _ hstep ih => rw [dstep_total_eq hstep]; exact ih
  exact ⟨by simp [dispatcherInit], rfl, fun t w _ => rfl, htot, by omega⟩

/-- Witness for C5: a two-worker dispatcher after accepting one
connection still accounts for both workers. -/
theorem claim5_worker_conservation_witness :
    (dispatcherInit 2).idle.length = 2 ∧
    (dispatcherInit 2).running = [] ∧
    (∀ (t : DispatcherState) (w : Nat), w ∈ t.running →
      (finishStep w t).idle = w :: t.idle) ∧
    ({ idle := [0], running := [1] } : DispatcherState).idle.length
      + ({ idle := [0], running := [1] } : DispatcherState).running.length
      = 2 ∧
    ({ idle := [0], running := [1] } : DispatcherState).running.length ≤ 2 := by
  have hstep := DStep.dispatch (dispatcherInit 2) 1 [0] (by decide)
  have e : dispatchStep 1 [0] (dispatcherInit 2)
      = ({ idle := [0], running := [1] } : DispatcherState) := by decide
  exact claim5_worker_conservation 2 _
    (DReachable.step DReachable.refl (e ▸ hstep))

/-!
Function-level embedding of `TKvsDatabasePool::pool` (the release
operation) over the full per-type state array, for the release-effect
and invalid-handle claims.
-/

/-- A `TKvsDatabase` handle as far as `TKvsDatabasePool::pool` reads
it: validity flag, connection name, driver name. -/
structure Handle where
  valid : Bool
  name : String
  driver : String
deriving DecidableEq, Repr

/-- The default-constructed `TKvsDatabase()`: an invalid object. -/
def invalidHandle : Handle := { valid := false, name := "", driver := "" }

/-- Lookup `kvsTypeHash()->value(driverName, -1)`: the registry built by
`KvsTypeHash` maps driver "MONGODB" to `TKvsDatabase::MongoDB` and
"REDIS" to `TKvsDatabase::Redis` (modelled as the indices 0 and 1; the
numeric enum values live in a header outside this excerpt and only
their non-negativity matters here); unknown drivers give the default
-1. -/
def kvsTypeOf (driver : String) : Int :=
  if driver = "MONGODB" then 0 else if driver = "REDIS" then 1 else -1

/-- The state-array update a release performs: push the name onto the
warm stack of type `t` and store the release time there; every other
type's state is untouched. -/
def releaseUpdate (t : Int) (name : String) (now : Int)
    (g : Int → PoolState) : Int → PoolState :=
  fun u => if u = t then
      { g u with warm := name :: (g u).warm, lastReleased := now }
    else g u

/-- Embedding of `TKvsDatabasePool::pool` (lines 284-297) over the per-type state
array `g`: for a valid handle, look up its driver's type (an unknown
driver throws `RuntimeException("No such KVS type")`), push the
connection name onto that type's warm stack (`cachedDatabase[type]`)
and store `lastCachedTime[type]`; on every path finish with
`database = TKvsDatabase()`, handing the caller back an invalid
object. -/
def poolMethod (now : Int) (db : Handle) (g : Int → PoolState) :
    Except String ((Int → PoolState) × Handle) :=
  if db.valid then
    if kvsTypeOf db.driver < 0 then Except.error "No such KVS type"
    else Except.ok
      (releaseUpdate (kvsTypeOf db.driver) db.name now g, invalidHandle)
  else Except.ok (g, invalidHandle)

/-- Claim C7: releasing a valid connection of a registered type pushes
its name onto the warm stack of its type, sets that type's
last-release time to `now`, changes nothing else (cold stack and held
set of its type, and every other type's state, are unchanged), and
invalidates the caller's handle. -/
theorem claim7_release_effect (now : Int) (db : Handle)
    (g : Int → PoolState) (hv : db.valid = true)
    (ht : 0 ≤ kvsTypeOf db.driver) :
    poolMethod now db g
      = Except.ok (releaseUpdate (kvsTypeOf db.driver) db.name now g,
          invalidHandle) ∧
    releaseUpdate (kvsTypeOf db.driver) db.name now g (kvsTypeOf db.driver)
      = { g (kvsTypeOf db.driver) with
          warm := db.name :: (g (kvsTypeOf db.driver)).warm,
          lastReleased := now } ∧
    (releaseUpdate (kvsTypeOf db.driver) db.name now g
        (kvsTypeOf db.driver)).cold = (g (kvsTypeOf db.driver)).cold ∧
    (releaseUpdate (kvsTypeOf db.driver) db.name now g
        (kvsTypeOf db.driver)).inUse = (g (kvsTypeOf db.driver)).inUse ∧
    (∀ u, u ≠ kvsTypeOf db.driver →
      releaseUpdate (kvsTypeOf db.driver) db.name now g u = g u) ∧
    invalidHandle.valid = false := by
  have hnl : ¬ kvsTypeOf db.driver < 0 := not_lt.mpr ht
  refine ⟨by simp [poolMethod, hv, hnl], by simp [releaseUpdate], ?_, ?_, ?_, rfl⟩
  · simp [releaseUpdate]
  · simp [releaseUpdate]
  · intro u hu
    simp [releaseUpdate, hu]

/-- A concrete valid MongoDB handle. -/
def mongoHandle : Handle :=
  { valid := true, name := "kvs00_0", driver := "MONGODB" }

/-- Witness for C7 on a concrete valid MongoDB handle. -/
theorem claim7_release_effect_witness :
    mongoHandle.valid = true ∧
    0 ≤ kvsTypeOf mongoHandle.driver ∧
    poolMethod 7 mongoHandle (fun _ => initPool [])
      = Except.ok (releaseUpdate (kvsTypeOf mongoHandle.driver)
          mongoHandle.name 7 (fun _ => initPool []), invalidHandle) :=
  ⟨rfl, by decide,
    (claim7_release_effect 7 mongoHandle (fun _ => initPool [])
      rfl (by decide)).1⟩

/-- Claim C10: releasing an invalid handle leaves the whole state
array untouched — no warm push, no timestamp update anywhere — while
the handle is still reset to the invalid object. -/
theorem claim10_invalid_release_noop (now : Int) (db : Handle)
    (g : Int → PoolState) (hv : db.valid = false) :
    poolMethod now db g = Except.ok (g, invalidHandle) ∧
    invalidHandle.valid = false := by
  constructor
  · simp [poolMethod, hv]
  · rfl

/-- A concrete invalid handle. -/
def staleHandle : Handle :=
  { valid := false, name := "kvs00_9", driver := "MONGODB" }

/-- Witness for C10 on a concrete invalid handle. -/
theorem claim10_invalid_release_noop_witness :
    staleHandle.valid = false ∧
    (poolMethod 3 staleHandle (fun _ => initPool ["kvs00_9"])
      = Except.ok ((fun _ => initPool ["kvs00_9"]), invalidHandle) ∧
     invalidHandle.valid = false) :=
  ⟨rfl, claim10_invalid_release_noop 3 staleHandle
    (fun _ => initPool ["kvs00_9"]) rfl⟩

/-!
`TCacheSQLiteStore` (tcachesqlitestore.cpp).  The single table is a
list of rows (key, expiry timestamp in msec, byte size of the row);
`dbSize()` — `page_size * page_count`, read right after a `vacuum` —
is modelled as the total byte size of the remaining rows, and `vacuum`
itself as the identity on the rows (it only compacts the file).  The
double arithmetic is modelled exactly: `(int)(count() * 0.3)` equals
`3 * count / 10` and `dbSize() < _thresholdFileSize * 0.8` equals
`10 * dbSize < 8 * threshold` at every realistic magnitude.
-/

/-- One row of the cache table `kb`. -/
structure CacheEntry where
  key : String
  ts : Int
  size : Nat
deriving DecidableEq, Repr

/-- The cache table. -/
structure CacheStore where
  entries : List CacheEntry
deriving DecidableEq, Repr

/-- Row count `TCacheSQLiteStore::count`: `select count(1)`. -/
def storeCount (s : CacheStore) : Nat := s.entries.length

/-- File size `TCacheSQLiteStore::dbSize` after compaction. -/
def dbSize (s : CacheStore) : Nat := (s.entries.map CacheEntry.size).sum

/-- Insert a row into a timestamp-sorted list. -/
def insertByTs (e : CacheEntry) : List CacheEntry → List CacheEntry
  | [] => [e]
  | x :: xs => if e.ts < x.ts then e :: x :: xs else x :: insertByTs e xs

/-- The table rows in `order by t asc` order. -/
def sortByTs : List CacheEntry → List CacheEntry
  | [] => []
  | x :: xs => insertByTs x (sortByTs xs)

/-- Embedding of `TCacheSQLiteStore::removeOlder(num)` (lines 208-227): for
`num < 1` return -1 and delete nothing, otherwise delete the `num`
rows with the smallest timestamps (`delete ... where ROWID in (select
ROWID ... order by t asc limit :num)`) and return the affected row
count. -/
def removeOlderFn (num : Int) (s : CacheStore) : Int × CacheStore :=
  if num < 1 then (-1, s)
  else (min num (storeCount s : Int),
    { entries := (sortByTs s.entries).drop num.toNat })

/-- Embedding of `TCacheSQLiteStore::removeOlderThan(timestamp)` (lines 230-245):
delete every row with `t < :ts`, returning the affected count. -/
def removeOlderThanFn (ts : Int) (s : CacheStore) : Int × CacheStore :=
  (((s.entries.filter (fun e => decide (e.ts < ts))).length : Int),
   { entries := s.entries.filter (fun e => decide (¬ e.ts < ts)) })

/-- One body of the `for (int i = 0; i < 3; i++)` loop of `gc`:
`removeOlder(count() * 0.3)` followed by `vacuum()`. -/
def gcPass (s : CacheStore) : CacheStore :=
  (removeOlderFn ((3 * (storeCount s : Int)) / 10) s).2

/-- The bounded cleanup loop of `gc` (lines 297-303), the remaining
iteration budget as fuel: run one pass, stop as soon as
`dbSize() < _thresholdFileSize * 0.8`, otherwise continue; the second
component counts the iterations executed. -/
def gcLoop (threshold : Int) : Nat → CacheStore → CacheStore × Nat
  | 0, s => (s, 0)
  | k + 1, s =>
      let s1 := gcPass s
      if (10 : Int) * (dbSize s1 : Int) < 8 * threshold then (s1, 1)
      else
        match gcLoop threshold k s1 with
        | (s2, j) => (s2, j + 1)

/-- Embedding of `TCacheSQLiteStore::gc` (lines 290-306): purge expired rows
(`removeOlderThan` of the current time) and vacuum; then, if a
positive size threshold is configured and the file size exceeds it,
run the cleanup loop with budget 3. -/
def gcFn (now threshold : Int) (s : CacheStore) : CacheStore × Nat :=
  let s1 := (removeOlderThanFn now s).2
  if 0 < threshold ∧ threshold < (dbSize s1 : Int) then gcLoop threshold 3 s1
  else (s1, 0)

/-- Claim C9: when the configured threshold is positive and the
on-disk size (as `gc` observes it, after the expired-row purge)
exceeds it, `gc` repeatedly removes the oldest 30% of the rows and
compacts, for at most 3 iterations, and stops early as soon as the
size falls under 80% of the threshold. -/
theorem claim9_gc_bounded_cleanup (now threshold : Int) (s : CacheStore)
    (hpos : 0 < threshold)
    (hbig : threshold < (dbSize (removeOlderThanFn now s).2 : Int)) :
    (gcFn now threshold s).2 ≤ 3 ∧
    gcFn now threshold s =
      (let s1 := (removeOlderThanFn now s).2
       let p1 := gcPass s1
       if (10 : Int) * (dbSize p1 : Int) < 8 * threshold then (p1, 1)
       else
         let p2 := gcPass p1
         if (10 : Int) * (dbSize p2 : Int) < 8 * threshold then (p2, 2)
         else (gcPass p2, 3)) := by
  have hcond : 0 < threshold ∧
      threshold < (dbSize (removeOlderThanFn now s).2 : Int) := ⟨hpos, hbig⟩
  have hmain : gcFn now threshold s
      = gcLoop threshold 3 (removeOlderThanFn now s).2 := by
    simp only [gcFn]
    rw [if_pos hcond]
  constructor
  · rw [hmain]
    simp only [gcLoop]
    split
    · omega
    · split
      · omega
      · split <;> omega
  · rw [hmain]
    simp only [gcLoop]
    split
    · rfl
    · split
      · rfl
      · split <;> rfl

/-- The concrete cache store for the C9 witness: four 100-byte rows,
none expired. -/
def demoStore : CacheStore :=
  { entries :=
      [{ key := "k0", ts := 10, size := 100 },
       { key := "k1", ts := 11, size := 100 },
       { key := "k2", ts := 12, size := 100 },
       { key := "k3", ts := 13, size := 100 }] }

/-- Witness for C9: threshold 50, size 400 — the loop runs its full 3
iterations (the second and third remove nothing since
`(int)(3 * 0.3) = 0`) and gc returns iteration count 3. -/
theorem claim9_gc_bounded_cleanup_witness :
    (0 : Int) < 50 ∧
    (50 : Int) < (dbSize (removeOlderThanFn 0 demoStore).2 : Int) ∧
    ((gcFn 0 50 demoStore).2 ≤ 3 ∧
     gcFn 0 50 demoStore =
      (let s1 := (removeOlderThanFn 0 demoStore).2
       let p1 := gcPass s1
       if (10 : Int) * (dbSize p1 : Int) < 8 * 50 then (p1, 1)
       else
         let p2 := gcPass p1
         if (10 : Int) * (dbSize p2 : Int) < 8 * 50 then (p2, 2)
         else (gcPass p2, 3))) :=
  ⟨by decide, by decide, claim9_gc_bounded_cleanup 0 50 demoStore
    (by decide) (by decide)⟩

end TreeFrog
